import Mathlib

/-!
Verification development for the `headermapper` Go package of
bhatti/grpc-header-mapper.

The Go code is shallowly embedded: maps (`metadata.MD`, `http.Header`)
become association lists, the warn calls of the logger for missing required
fields become a natural-number counter, and `time.Now()` becomes an
explicit parameter.  Go `metadata.MD` lowercases keys on `Set`/`Get`;
the Go `http.Header` / `textproto` canonical-key matching is case-insensitive
for token header names; both are modelled by comparing lowercased keys.
ASCII lowercasing is modelled explicitly at the character-list level so
that all definitions evaluate inside the kernel.
-/

/-- ASCII lowercasing of a string, modelling Go `strings.ToLower` (the
header names appearing in rules are ASCII). -/
def lowerStr (s : String) : String :=
  String.mk (s.data.map Char.toLower)

/-- Direction of a mapping, from `MappingDirection` in mapper.go. -/
inductive MappingDirection where
  | Incoming
  | Outgoing
  | Bidirectional
deriving DecidableEq

/-- TransformFunc from mapper.go: a pure value-to-value function. -/
abbrev TransformFunc : Type := String → String

/-- HeaderMapping from mapper.go.  `transform` is `Option` because the Go
field is a nilable function value. -/
structure HeaderMapping where
  httpHeader : String
  grpcMetadata : String
  direction : MappingDirection
  transform : Option TransformFunc := none
  required : Bool := false
  defaultValue : String := ""

/-- Config from mapper.go. -/
structure Config where
  mappings : List HeaderMapping
  skipPaths : List String := []
  caseSensitive : Bool := false
  overwriteExisting : Bool := false
  debug : Bool := false

/-- gRPC metadata `metadata.MD` (Go `map[string][]string`), as an
association list.  Keys are stored lowercased, as `metadata.MD.Set` does. -/
abbrev MD : Type := List (String × List String)

/-- An HTTP header collection, as a list of name/value pairs. -/
abbrev Headers : Type := List (String × String)

/-- A response header sink (`http.ResponseWriter.Header()`), as an
association list with canonical (here: lowercased) keys. -/
abbrev Sink : Type := List (String × String)

/-- Models `metadata.MD.Get`: lowercases the key and returns the value slice. -/
def mdGet (md : MD) (k : String) : List String :=
  match md.find? (fun p => p.1 == lowerStr k) with
  | some p => p.2
  | none => []

/-- Models `metadata.MD.Set`: lowercases the key and replaces the value slice. -/
def mdSet (md : MD) (k : String) (vs : List String) : MD :=
  (lowerStr k, vs) :: md.filter (fun p => !(p.1 == lowerStr k))

/-- Models `http.Request.Header.Get`: Go canonicalizes the MIME header key, so
lookup is case-insensitive; returns the first value, or `""` if absent. -/
def hGet (hs : Headers) (k : String) : String :=
  match hs.find? (fun p => lowerStr p.1 == lowerStr k) with
  | some p => p.2
  | none => ""

/-- Models `w.Header().Get`: canonical-key lookup in the response sink. -/
def sinkGet (s : Sink) (k : String) : String :=
  match s.find? (fun p => p.1 == lowerStr k) with
  | some p => p.2
  | none => ""

/-- Models `w.Header().Set`: canonical-key replacement in the response sink. -/
def sinkSet (s : Sink) (k : String) (v : String) : Sink :=
  (lowerStr k, v) :: s.filter (fun p => !(p.1 == lowerStr k))

/-- Application of an optional transform, modelling the Go pattern
`if mapping.Transform != nil { v = mapping.Transform(v) }`. -/
def applyTransform : Option TransformFunc → String → String
  | none, v => v
  | some f, v => f v

/-- ToLower from mapper.go. -/
def ToLower (value : String) : String :=
  lowerStr value

/-- ToUpper from mapper.go. -/
def ToUpper (value : String) : String :=
  String.mk (value.data.map Char.toUpper)

/-- TrimSpace from mapper.go (`strings.TrimSpace`), modelled on the list of
characters with the standard whitespace class. -/
def TrimSpace (value : String) : String :=
  String.mk
    (((value.data.dropWhile Char.isWhitespace).reverse.dropWhile
        Char.isWhitespace).reverse)

/-- AddPrefix from mapper.go. -/
def AddPrefix (p : String) : TransformFunc :=
  fun value => p ++ value

/-- RemovePrefix from mapper.go (`strings.TrimPrefix`): drops `p` when
`value` starts with it, otherwise returns `value` unchanged. -/
def RemovePrefix (p : String) : TransformFunc :=
  fun value =>
    if p.data.isPrefixOf value.data then String.mk (value.data.drop p.data.length)
    else value

/-- ChainTransforms from mapper.go: folds the transforms left to right over
the value, skipping `nil` (here `none`) entries. -/
def ChainTransforms (transforms : List (Option TransformFunc)) : TransformFunc :=
  fun value =>
    transforms.foldl
      (fun result t =>
        match t with
        | some f => f result
        | none => result)
      value

/-- mapIncomingHeader from mapper.go.  Returns the updated metadata and the
number of `logger.Warn("Required header missing", ...)` events (0 or 1). -/
def mapIncomingHeader (cfg : Config) (req : Headers) (md : MD)
    (mapping : HeaderMapping) : MD × Nat :=
  let headerValue := hGet req mapping.httpHeader
  let headerValue :=
    if headerValue = "" ∧ mapping.defaultValue ≠ "" then mapping.defaultValue
    else headerValue
  if headerValue = "" ∧ mapping.required = true then (md, 1)
  else if headerValue = "" then (md, 0)
  else
    let headerValue := applyTransform mapping.transform headerValue
    if cfg.overwriteExisting = false ∧ mdGet md mapping.grpcMetadata ≠ [] then
      (md, 0)
    else (mdSet md mapping.grpcMetadata [headerValue], 0)

/-- The rule loop of MetadataAnnotator in mapper.go: rules with direction
`Outgoing` are skipped (`continue`), every other rule goes through
`mapIncomingHeader`; warn counts are accumulated. -/
def applyInboundRules (cfg : Config) (req : Headers) :
    List HeaderMapping → MD → MD × Nat
  | [], md => (md, 0)
  | mapping :: rest, md =>
    if mapping.direction = MappingDirection.Outgoing then
      applyInboundRules cfg req rest md
    else
      let r := mapIncomingHeader cfg req md mapping
      let res := applyInboundRules cfg req rest r.1
      (res.1, r.2 + res.2)

/-- MetadataAnnotator from mapper.go: on a skip path it returns
`metadata.New(map[string]string{})` (the empty metadata) at once; otherwise
it folds all non-Outgoing mappings over the empty metadata. -/
def MetadataAnnotator (cfg : Config) (path : String) (req : Headers) :
    MD × Nat :=
  if path ∈ cfg.skipPaths then ([], 0)
  else applyInboundRules cfg req cfg.mappings []

/-- mapOutgoingHeader from mapper.go.  Returns the updated header sink and
the number of `logger.Warn("Required metadata missing", ...)` events. -/
def mapOutgoingHeader (cfg : Config) (md : MD) (w : Sink)
    (mapping : HeaderMapping) : Sink × Nat :=
  let values := mdGet md mapping.grpcMetadata
  let values :=
    if values = [] ∧ mapping.defaultValue ≠ "" then [mapping.defaultValue]
    else values
  if values = [] ∧ mapping.required = true then (w, 1)
  else
    match values with
    | [] => (w, 0)
    | headerValue :: _ =>
      let headerValue := applyTransform mapping.transform headerValue
      if cfg.overwriteExisting = false ∧ sinkGet w mapping.httpHeader ≠ "" then
        (w, 0)
      else (sinkSet w mapping.httpHeader headerValue, 0)

/-- The rule loop of ResponseModifier in mapper.go: rules with direction
`Incoming` are skipped (`continue`), every other rule goes through
`mapOutgoingHeader`. -/
def applyOutboundRules (cfg : Config) (md : MD) :
    List HeaderMapping → Sink → Sink × Nat
  | [], w => (w, 0)
  | mapping :: rest, w =>
    if mapping.direction = MappingDirection.Incoming then
      applyOutboundRules cfg md rest w
    else
      let r := mapOutgoingHeader cfg md w mapping
      let res := applyOutboundRules cfg md rest r.1
      (res.1, r.2 + res.2)

/-- ResponseModifier from mapper.go, for a call that carries server
metadata `md` (the `runtime.ServerMetadataFromContext` success case). -/
def ResponseModifier (cfg : Config) (md : MD) (w : Sink) : Sink × Nat :=
  applyOutboundRules cfg md cfg.mappings w

/-- The metadata-copy loop of processIncomingMetadata in mapper.go:
`for k, v := range md { newMD.Set(k, v...) }` starting from empty metadata. -/
def copyMD (md : MD) : MD :=
  md.foldl (fun acc p => mdSet acc p.1 p.2) []

/-- processIncomingMetadata from mapper.go.  The call context is modelled
by its incoming metadata (`none` when `metadata.FromIncomingContext` fails,
in which case the context is returned unchanged).  The mapping loop in the
source only skips Outgoing rules and has an empty body (its comment: the
metadata is already processed by MetadataAnnotator), so it is a fold that
returns its accumulator unchanged. -/
def processIncomingMetadata (cfg : Config) (ctx : Option MD) : Option MD :=
  match ctx with
  | none => ctx
  | some md =>
    let newMD := copyMD md
    let newMD :=
      cfg.mappings.foldl
        (fun acc mapping =>
          if mapping.direction = MappingDirection.Outgoing then acc else acc)
        newMD
    some newMD

/-- UnaryServerInterceptor from mapper.go, modelled by the context (its
incoming metadata) that the wrapped handler receives for a call on
`fullMethod`: skip paths pass the context through untouched, otherwise the
context is rebound to `processIncomingMetadata`.  The same shape covers
StreamServerInterceptor, whose wrapped stream carries the same context. -/
def UnaryServerInterceptor (cfg : Config) (fullMethod : String)
    (ctx : Option MD) : Option MD :=
  if fullMethod ∈ cfg.skipPaths then ctx
  else processIncomingMetadata cfg ctx

/-- Insertion into the `headerMap` Go map built by HeaderMatcher
(`headerMap[key] = mapping.GRPCMetadata`: a later insert replaces an
earlier one). -/
def hmInsert (l : List (String × String)) (k v : String) :
    List (String × String) :=
  (k, v) :: l.filter (fun p => !(p.1 == k))

/-- The `headerMap` built by HeaderMatcher in mapper.go: every non-Outgoing
mapping is inserted under its HTTP header name, lowercased unless
`CaseSensitive` is set. -/
def buildHeaderMap (cfg : Config) : List (String × String) :=
  cfg.mappings.foldl
    (fun acc mapping =>
      if mapping.direction = MappingDirection.Outgoing then acc
      else
        hmInsert acc
          (if cfg.caseSensitive then mapping.httpHeader
           else lowerStr mapping.httpHeader)
          mapping.grpcMetadata)
    []

/-- The rule-matching branch of HeaderMatcher in mapper.go: the search key
is lowercased unless `CaseSensitive` is set and looked up in `headerMap`.
`none` means the source falls through to `runtime.DefaultHeaderMatcher`
(external grpc-gateway code, outside this embedding). -/
def headerMatcherLookup (cfg : Config) (key : String) : Option String :=
  let searchKey := if cfg.caseSensitive then key else lowerStr key
  match (buildHeaderMap cfg).find? (fun p => p.1 == searchKey) with
  | some p => some p.2
  | none => none

/-- Validate from mapper.go, as the presence of a returned error.  The
receiver config pointer can be nil, hence the `Option`.  The source
returns the first error for a mapping with an empty HTTPHeader or an empty
GRPCMetadata and checks nothing else. -/
def Validate (config : Option Config) : Bool :=
  match config with
  | none => true
  | some c => c.mappings.any (fun m => m.httpHeader == "" || m.grpcMetadata == "")

/-- The duplicate-detection key of ValidateConfig in config.go:
`fmt.Sprintf("%s->%s", mapping.HTTPHeader, mapping.GRPCMetadata)`. -/
def ruleKey (m : HeaderMapping) : String :=
  m.httpHeader ++ "->" ++ m.grpcMetadata

/-- The loop of ValidateConfig in config.go over the mappings, with the
`seen` accumulator of already-inserted keys; `true` means some error was
returned (empty field or duplicate key). -/
def checkMappings : List HeaderMapping → List String → Bool
  | [], _ => false
  | m :: rest, seen =>
    if m.httpHeader == "" then true
    else if m.grpcMetadata == "" then true
    else if seen.contains (ruleKey m) then true
    else checkMappings rest (ruleKey m :: seen)

/-- ValidateConfig from config.go, as the presence of a returned error. -/
def ValidateConfig (config : Option Config) : Bool :=
  match config with
  | none => true
  | some c => checkMappings c.mappings []

/-- Stats from mapper.go. -/
structure Stats where
  incomingMappings : Int
  outgoingMappings : Int
  failedMappings : Int
  lastUpdated : Nat

/-- GetStats from mapper.go.  The source is a placeholder: it builds a
fresh `Stats` whose only populated field is `LastUpdated: time.Now()`
(modelled by the `now` parameter); every counter is the zero value. -/
def GetStats (_hm : Config) (now : Nat) : Stats :=
  { incomingMappings := 0, outgoingMappings := 0, failedMappings := 0
    lastUpdated := now }

/-- NewBuilder from mapper.go: an empty Config.  The Builder is modelled by
the Config it owns. -/
def NewBuilder : Config :=
  { mappings := [] }

/-- AddMapping from mapper.go: appends a HeaderMapping with zero-valued
optional fields. -/
def AddMapping (b : Config) (httpHeader grpcMetadata : String)
    (direction : MappingDirection) : Config :=
  { b with
    mappings := b.mappings ++
      [{ httpHeader := httpHeader, grpcMetadata := grpcMetadata
         direction := direction }] }

/-- The Go pattern `if len(b.config.Mappings) > 0 {
b.config.Mappings[len(b.config.Mappings)-1] = f(last) }`: updates the last
element of the list, if any. -/
def updateLast (ms : List HeaderMapping) (f : HeaderMapping → HeaderMapping) :
    List HeaderMapping :=
  match ms with
  | [] => []
  | [m] => [f m]
  | m :: rest => m :: updateLast rest f

/-- WithTransform from mapper.go: sets the transform of the last added
mapping; a no-op when no mapping has been added. -/
def WithTransform (b : Config) (t : TransformFunc) : Config :=
  { b with mappings := updateLast b.mappings (fun m => { m with transform := some t }) }

/-- WithRequired from mapper.go. -/
def WithRequired (b : Config) (required : Bool) : Config :=
  { b with mappings := updateLast b.mappings (fun m => { m with required := required }) }

/-- WithDefault from mapper.go. -/
def WithDefault (b : Config) (defaultValue : String) : Config :=
  { b with mappings := updateLast b.mappings (fun m => { m with defaultValue := defaultValue }) }

/-- Projection of metadata to the first value of every key; used to state
that the outbound pass collapses multi-valued metadata to its first entry. -/
def mdFirst (md : MD) : MD :=
  md.map (fun p => (p.1, p.2.take 1))

/-! ### Concrete fixtures for the claims -/

/-- An ordinary inbound rule, used next to the failing required rule. -/
def mC1 : HeaderMapping :=
  { httpHeader := "X-User-ID", grpcMetadata := "user-id"
    direction := MappingDirection.Incoming }

/-- A required inbound rule without default, as in the package test
"required header missing". -/
def rC1 : HeaderMapping :=
  { httpHeader := "X-Required", grpcMetadata := "required"
    direction := MappingDirection.Incoming, required := true }

def cfgC1 : Config :=
  { mappings := [mC1, rC1] }

def hsC1 : Headers := [("X-User-ID", "12345")]

def mC2x : HeaderMapping :=
  { httpHeader := "X-A", grpcMetadata := "a"
    direction := MappingDirection.Incoming }

def cfgC2x : Config :=
  { mappings := [mC2x] }

/-- A request that carries the header "X-A" with the empty string value. -/
def hsC2x : Headers := [("X-A", "")]

def mC2a : HeaderMapping :=
  { httpHeader := "X-First", grpcMetadata := "dest"
    direction := MappingDirection.Incoming }

def mC2b : HeaderMapping :=
  { httpHeader := "X-Second", grpcMetadata := "dest"
    direction := MappingDirection.Bidirectional
    transform := some ( AddPrefix "p:") }

def cfgC2w : Config :=
  { mappings := [mC2a, mC2b] }

def hsC2w : Headers := [("X-First", "one"), ("X-Second", "two")]

def cfgC3 : Config :=
  { mappings := [{ httpHeader := "X-User-ID", grpcMetadata := "user-id"
                   direction := MappingDirection.Incoming }]
    skipPaths := ["/health"] }

def mC4 : HeaderMapping :=
  { httpHeader := "X-Custom", grpcMetadata := "custom-int"
    direction := MappingDirection.Incoming }

def cfgC4 : Config :=
  { mappings := [mC4], skipPaths := ["/health"] }

/-- Incoming call metadata carrying a value under the external-style key. -/
def mdC4 : MD := [("x-custom", ["v"])]

/-- A rule declared with the lowercase external name "x-user-id". -/
def mC5 : HeaderMapping :=
  { httpHeader := "x-user-id", grpcMetadata := "user-id"
    direction := MappingDirection.Incoming }

def cfgC5 : Config :=
  { mappings := [mC5], caseSensitive := true }

/-- A request whose header differs from the declared name only in case. -/
def hsC5 : Headers := [("X-User-Id", "42")]

/-- An outgoing rule with a transform, as in the package ResponseModifier
tests. -/
def mC6 : HeaderMapping :=
  { httpHeader := "X-Response-Time", grpcMetadata := "response-time"
    direction := MappingDirection.Outgoing
    transform := some ( AddPrefix "Duration: ") }

def cfgC6 : Config :=
  { mappings := [mC6] }

/-- Server metadata carrying two values under one key. -/
def mdC6 : MD := [("response-time", ["150ms", "999ms"])]

/-- Two rules forming a duplicate (externalName, internalName) pair. -/
def dupC7a : HeaderMapping :=
  { httpHeader := "X-Request-ID", grpcMetadata := "request-id"
    direction := MappingDirection.Incoming }

def dupC7b : HeaderMapping :=
  { httpHeader := "X-Request-ID", grpcMetadata := "request-id"
    direction := MappingDirection.Bidirectional }

def cfgC7 : Config :=
  { mappings := [dupC7a, dupC7b] }

/-- A builder with two mappings, built through NewBuilder and AddMapping. -/
def bC9 : Config :=
  AddMapping (AddMapping NewBuilder "X-A" "a" MappingDirection.Incoming)
    "X-B" "b" MappingDirection.Outgoing

def mC9a : HeaderMapping :=
  { httpHeader := "X-A", grpcMetadata := "a"
    direction := MappingDirection.Incoming }

def mC9b : HeaderMapping :=
  { httpHeader := "X-B", grpcMetadata := "b"
    direction := MappingDirection.Outgoing }

/-- A rule with both required=true and a default value and a transform. -/
def mC10 : HeaderMapping :=
  { httpHeader := "X-User-ID", grpcMetadata := "user-id"
    direction := MappingDirection.Bidirectional
    transform := some ( AddPrefix "T:")
    required := true
    defaultValue := "anonymous" }

def cfgC10 : Config :=
  { mappings := [mC10] }

/-! ### Helper lemmas about the association-list operations -/

lemma find?_filter_of_ne {α : Type} (l : List (String × α)) (a b : String)
    (h : a ≠ b) :
    (l.filter (fun p => !(p.1 == b))).find? (fun p => p.1 == a) =
      l.find? (fun p => p.1 == a) := by
  induction l with
  | nil => rfl
  | cons p rest ih =>
    by_cases hp : p.1 = b
    · rw [List.filter_cons_of_neg (by simp [hp]), ih,
        List.find?_cons_of_neg _ (by simp [hp, Ne.symm h])]
    · rw [List.filter_cons_of_pos (by simp [hp])]
      by_cases ha : p.1 = a
      · rw [List.find?_cons_of_pos _ (by simp [ha]),
          List.find?_cons_of_pos _ (by simp [ha])]
      · rw [List.find?_cons_of_neg _ (by simp [ha]),
          List.find?_cons_of_neg _ (by simp [ha]), ih]

lemma mdGet_mdSet (md : MD) (k : String) (vs : List String) (k2 : String) :
    mdGet (mdSet md k vs) k2 =
      if lowerStr k2 = lowerStr k then vs else mdGet md k2 := by
  unfold mdGet mdSet
  by_cases h : lowerStr k2 = lowerStr k
  · simp [List.find?_cons, h]
  · rw [if_neg h, List.find?_cons_of_neg _ (by simp [Ne.symm h]),
      find?_filter_of_ne _ _ _ h]

lemma sinkGet_sinkSet (s : Sink) (k v : String) (k2 : String) :
    sinkGet (sinkSet s k v) k2 =
      if lowerStr k2 = lowerStr k then v else sinkGet s k2 := by
  unfold sinkGet sinkSet
  by_cases h : lowerStr k2 = lowerStr k
  · simp [List.find?_cons, h]
  · rw [if_neg h, List.find?_cons_of_neg _ (by simp [Ne.symm h]),
      find?_filter_of_ne _ _ _ h]

lemma mdGet_mdFirst (md : MD) (k : String) :
    mdGet (mdFirst md) k = (mdGet md k).take 1 := by
  unfold mdGet mdFirst
  induction md with
  | nil => rfl
  | cons p rest ih =>
    by_cases h : p.1 = lowerStr k
    · simp [List.find?_cons, h]
    · simp only [List.map_cons]
      rw [List.find?_cons_of_neg _ (by simp [h]),
        List.find?_cons_of_neg _ (by simp [h])]
      exact ih

/-! ### Case analysis lemmas for the per-rule mapping functions -/

lemma mapIncomingHeader_present (cfg : Config) (req : Headers) (md : MD)
    (m : HeaderMapping) (V : String) (hv : hGet req m.httpHeader = V)
    (hne : V ≠ "") :
    mapIncomingHeader cfg req md m =
      (if cfg.overwriteExisting = false ∧ mdGet md m.grpcMetadata ≠ [] then md
       else mdSet md m.grpcMetadata [applyTransform m.transform V], 0) := by
  by_cases hc : cfg.overwriteExisting = false ∧ mdGet md m.grpcMetadata ≠ []
  · simp [mapIncomingHeader, hv, hne, hc]
  · simp [mapIncomingHeader, hv, hne, hc]

lemma mapIncomingHeader_default (cfg : Config) (req : Headers) (md : MD)
    (m : HeaderMapping) (hd : m.defaultValue ≠ "")
    (habs : hGet req m.httpHeader = "") :
    mapIncomingHeader cfg req md m =
      (if cfg.overwriteExisting = false ∧ mdGet md m.grpcMetadata ≠ [] then md
       else mdSet md m.grpcMetadata
         [applyTransform m.transform m.defaultValue], 0) := by
  by_cases hc : cfg.overwriteExisting = false ∧ mdGet md m.grpcMetadata ≠ []
  · simp [mapIncomingHeader, habs, hd, hc]
  · simp [mapIncomingHeader, habs, hd, hc]

lemma mapIncomingHeader_required_missing (cfg : Config) (req : Headers)
    (md : MD) (m : HeaderMapping) (habs : hGet req m.httpHeader = "")
    (hdef : m.defaultValue = "") (hreq : m.required = true) :
    mapIncomingHeader cfg req md m = (md, 1) := by
  simp [mapIncomingHeader, habs, hdef, hreq]

lemma mapOutgoingHeader_present (cfg : Config) (md : MD) (w : Sink)
    (m : HeaderMapping) (v : String) (rest : List String)
    (hv : mdGet md m.grpcMetadata = v :: rest) :
    mapOutgoingHeader cfg md w m =
      (if cfg.overwriteExisting = false ∧ sinkGet w m.httpHeader ≠ "" then w
       else sinkSet w m.httpHeader (applyTransform m.transform v), 0) := by
  by_cases hc : cfg.overwriteExisting = false ∧ sinkGet w m.httpHeader ≠ ""
  · simp [mapOutgoingHeader, hv, hc]
  · simp [mapOutgoingHeader, hv, hc]

lemma mapOutgoingHeader_default (cfg : Config) (md : MD) (w : Sink)
    (m : HeaderMapping) (hv : mdGet md m.grpcMetadata = [])
    (hd : m.defaultValue ≠ "") :
    mapOutgoingHeader cfg md w m =
      (if cfg.overwriteExisting = false ∧ sinkGet w m.httpHeader ≠ "" then w
       else sinkSet w m.httpHeader
         (applyTransform m.transform m.defaultValue), 0) := by
  by_cases hc : cfg.overwriteExisting = false ∧ sinkGet w m.httpHeader ≠ ""
  · simp [mapOutgoingHeader, hv, hd, hc]
  · simp [mapOutgoingHeader, hv, hd, hc]

lemma mapOutgoingHeader_required_missing (cfg : Config) (md : MD) (w : Sink)
    (m : HeaderMapping) (hv : mdGet md m.grpcMetadata = [])
    (hdef : m.defaultValue = "") (hreq : m.required = true) :
    mapOutgoingHeader cfg md w m = (w, 1) := by
  simp [mapOutgoingHeader, hv, hdef, hreq]

lemma mapOutgoingHeader_missing_optional (cfg : Config) (md : MD) (w : Sink)
    (m : HeaderMapping) (hv : mdGet md m.grpcMetadata = [])
    (hdef : m.defaultValue = "") (hreq : m.required = false) :
    mapOutgoingHeader cfg md w m = (w, 0) := by
  simp [mapOutgoingHeader, hv, hdef, hreq]

/-! ### Structural lemmas about the two rule passes -/

lemma applyInboundRules_middle_required (cfg : Config) (req : Headers)
    (r : HeaderMapping) (hreq : r.required = true) (hdef : r.defaultValue = "")
    (habs : hGet req r.httpHeader = "")
    (hdir : r.direction ≠ MappingDirection.Outgoing) :
    ∀ (rs1 rs2 : List HeaderMapping) (md : MD),
      applyInboundRules cfg req (rs1 ++ r :: rs2) md =
        ((applyInboundRules cfg req (rs1 ++ rs2) md).1,
         (applyInboundRules cfg req (rs1 ++ rs2) md).2 + 1) := by
  intro rs1
  induction rs1 with
  | nil =>
    intro rs2 md
    simp only [List.nil_append, applyInboundRules, if_neg hdir,
      mapIncomingHeader_required_missing cfg req md r habs hdef hreq]
    exact congrArg _ (Nat.add_comm 1 _)
  | cons a rs1 ih =>
    intro rs2 md
    by_cases ha : a.direction = MappingDirection.Outgoing
    · simp only [List.cons_append, applyInboundRules, if_pos ha]
      exact ih rs2 md
    · simp only [List.cons_append, applyInboundRules, if_neg ha]
      have hstep := ih rs2 ((mapIncomingHeader cfg req md a).1)
      change
        ((applyInboundRules cfg req (rs1 ++ r :: rs2)
            (mapIncomingHeader cfg req md a).1).1,
          (mapIncomingHeader cfg req md a).2 +
            (applyInboundRules cfg req (rs1 ++ r :: rs2)
              (mapIncomingHeader cfg req md a).1).2) =
        ((applyInboundRules cfg req (rs1 ++ rs2)
            (mapIncomingHeader cfg req md a).1).1,
          (mapIncomingHeader cfg req md a).2 +
              (applyInboundRules cfg req (rs1 ++ rs2)
                (mapIncomingHeader cfg req md a).1).2 + 1)
      rw [hstep, Nat.add_assoc]

lemma applyInboundRules_congr (c1 c2 : Config)
    (hov : c1.overwriteExisting = c2.overwriteExisting) (req : Headers) :
    ∀ (l : List HeaderMapping) (md : MD),
      applyInboundRules c1 req l md = applyInboundRules c2 req l md := by
  intro l
  induction l with
  | nil => intro md; rfl
  | cons a l ih =>
    intro md
    have hm : ∀ md, mapIncomingHeader c1 req md a = mapIncomingHeader c2 req md a := by
      intro md; unfold mapIncomingHeader; rw [hov]
    by_cases ha : a.direction = MappingDirection.Outgoing
    · simp only [applyInboundRules, if_pos ha]; exact ih md
    · simp only [applyInboundRules, if_neg ha, hm, ih]

lemma processIncomingMetadata_some (cfg : Config) (md : MD) :
    processIncomingMetadata cfg (some md) = some (copyMD md) := by
  unfold processIncomingMetadata
  have h : ∀ (l : List HeaderMapping) (x : MD),
      l.foldl
        (fun acc mapping =>
          if mapping.direction = MappingDirection.Outgoing then acc else acc)
        x = x := by
    intro l
    induction l with
    | nil => intro x; rfl
    | cons a l ih => intro x; simp [List.foldl_cons, ih]
  simp [h]

lemma mapOutgoingHeader_mdFirst (cfg : Config) (md : MD) (w : Sink)
    (m : HeaderMapping) :
    mapOutgoingHeader cfg md w m = mapOutgoingHeader cfg (mdFirst md) w m := by
  cases hv : mdGet md m.grpcMetadata with
  | nil =>
    have hv2 : mdGet (mdFirst md) m.grpcMetadata = [] := by
      rw [mdGet_mdFirst, hv]; rfl
    unfold mapOutgoingHeader
    rw [hv, hv2]
  | cons v rest =>
    have hv2 : mdGet (mdFirst md) m.grpcMetadata = [v] := by
      rw [mdGet_mdFirst, hv]; rfl
    rw [mapOutgoingHeader_present cfg md w m v rest hv,
      mapOutgoingHeader_present cfg (mdFirst md) w m v [] hv2]

lemma updateLast_append (ms : List HeaderMapping) (m : HeaderMapping)
    (f : HeaderMapping → HeaderMapping) :
    updateLast (ms ++ [m]) f = ms ++ [f m] := by
  induction ms with
  | nil => rfl
  | cons a ms ih =>
    cases ms with
    | nil => rfl
    | cons b ms2 =>
      simp only [List.cons_append, updateLast] at ih ⊢
      exact congrArg (List.cons a) ih

/-! ### Lemmas about the ValidateConfig duplicate check -/

lemma checkMappings_mem_seen (m2 : HeaderMapping) :
    ∀ (l2 l3 : List HeaderMapping) (seen : List String),
      seen.contains (ruleKey m2) = true →
      checkMappings (l2 ++ m2 :: l3) seen = true := by
  intro l2
  induction l2 with
  | nil =>
    intro l3 seen h
    simp only [List.nil_append, checkMappings, h]
    split
    · rfl
    · split
      · rfl
      · simp
  | cons a l2 ih =>
    intro l3 seen h
    simp only [List.cons_append, checkMappings]
    split
    · rfl
    · split
      · rfl
      · split
        · rfl
        · exact ih l3 (ruleKey a :: seen)
            (by simp only [List.contains_cons, h, Bool.or_true])

lemma checkMappings_dup (m1 m2 : HeaderMapping) (hk : ruleKey m1 = ruleKey m2) :
    ∀ (l1 l2 l3 : List HeaderMapping) (seen : List String),
      checkMappings (l1 ++ m1 :: (l2 ++ m2 :: l3)) seen = true := by
  intro l1
  induction l1 with
  | nil =>
    intro l2 l3 seen
    simp only [List.nil_append, checkMappings]
    split
    · rfl
    · split
      · rfl
      · split
        · rfl
        · exact checkMappings_mem_seen m2 l2 l3 (ruleKey m1 :: seen)
            (by simp [List.contains_cons, hk])
  | cons a l1 ih =>
    intro l2 l3 seen
    simp only [List.cons_append, checkMappings]
    split
    · rfl
    · split
      · rfl
      · split
        · rfl
        · exact ih l2 l3 (ruleKey a :: seen)

/-! ### Claims -/

/-- C1 counterexample: with the rule `rC1` (required=true, no default) and
a request without the header, applyInbound leaves the destination key
absent and records exactly one missing-required warning, but the failure
counter reported by GetStats does not increment by one: GetStats is a
placeholder that always reports `FailedMappings = 0`. -/
theorem C1_counterexample :
    mdGet (MetadataAnnotator cfgC1 "/api" hsC1).1 "required" = [] ∧
    (MetadataAnnotator cfgC1 "/api" hsC1).2 = 1 ∧
    (GetStats cfgC1 1).failedMappings = 0 ∧
    ¬ ((GetStats cfgC1 1).failedMappings =
        (GetStats cfgC1 0).failedMappings + 1) :=
  ⟨by decide, by decide, rfl, by decide⟩

/-- C1 (amended): for every rule with required=true, no default value and
no incoming value for its external header, applyInbound (MetadataAnnotator)
produces the same metadata as the pass over all the other rules (so the
failing rule writes nothing and every other rule is processed unaffected)
and records exactly one missing-required warning; no failure counter
increments, because GetStats is a placeholder always reporting
`FailedMappings = 0`. -/
theorem C1_required_missing_amended (cfg : Config) (path : String)
    (req : Headers) (rs1 rs2 : List HeaderMapping) (r : HeaderMapping)
    (hmaps : cfg.mappings = rs1 ++ r :: rs2)
    (hreq : r.required = true) (hdef : r.defaultValue = "")
    (habs : hGet req r.httpHeader = "")
    (hdir : r.direction ≠ MappingDirection.Outgoing)
    (hskip : path ∉ cfg.skipPaths) :
    (MetadataAnnotator cfg path req).1 =
      (applyInboundRules cfg req (rs1 ++ rs2) []).1 ∧
    (MetadataAnnotator cfg path req).2 =
      (applyInboundRules cfg req (rs1 ++ rs2) []).2 + 1 ∧
    ∀ t : Nat, (GetStats cfg t).failedMappings = 0 := by
  have h :=
    applyInboundRules_middle_required cfg req r hreq hdef habs hdir rs1 rs2 []
  unfold MetadataAnnotator
  rw [if_neg hskip, hmaps, h]
  exact ⟨rfl, rfl, fun t => rfl⟩

theorem C1_required_missing_amended_witness :
    (MetadataAnnotator cfgC1 "/api" hsC1).1 =
      (applyInboundRules cfgC1 hsC1 [mC1] []).1 ∧
    (MetadataAnnotator cfgC1 "/api" hsC1).2 =
      (applyInboundRules cfgC1 hsC1 [mC1] []).2 + 1 ∧
    (GetStats cfgC1 7).failedMappings = 0 :=
  have h := C1_required_missing_amended cfgC1 "/api" hsC1 [mC1] [] rC1
    rfl rfl rfl (by decide) (by decide) (by decide)
  ⟨h.1, h.2.1, h.2.2 7⟩

/-- C2 counterexample: the request `hsC2x` contains the external
header "X-A" with value V = "", yet applyInbound returns empty metadata
instead of writing V under the internal name "a": the Go `req.Header.Get`
cannot distinguish a present-but-empty header from an absent one, so the
missing-value path runs. -/
theorem C2_counterexample :
    ("X-A", "") ∈ hsC2x ∧
    (MetadataAnnotator cfgC2x "/api" hsC2x).1 = [] ∧
    ¬ (mdGet (MetadataAnnotator cfgC2x "/api" hsC2x).1 "a" = [""]) :=
  ⟨by decide, by decide, by decide⟩

/-- C2 (amended): for every rule whose external header carries a non-empty
value V, the inbound per-rule step writes `transform(V)` (or V without a
transform) under the internal name of the rule, unless overwriteExisting=false
and the key is already populated, in which case the write is rejected; in a
two-rule pass over the same internal key the first writer wins under
overwriteExisting=false and the later write replaces the earlier value
under overwriteExisting=true.  (A header present with an empty value is
treated as absent: the default/required path applies instead.) -/
theorem C2_inbound_write_semantics_amended :
    (∀ (cfg : Config) (req : Headers) (md : MD) (m : HeaderMapping)
        (V : String),
        hGet req m.httpHeader = V → V ≠ "" →
        mapIncomingHeader cfg req md m =
          (if cfg.overwriteExisting = false ∧ mdGet md m.grpcMetadata ≠ []
           then md
           else mdSet md m.grpcMetadata [applyTransform m.transform V], 0)) ∧
    (∀ (cfg : Config) (m1 m2 : HeaderMapping) (path : String) (req : Headers)
        (V1 V2 : String),
        cfg.mappings = [m1, m2] →
        m1.direction ≠ MappingDirection.Outgoing →
        m2.direction ≠ MappingDirection.Outgoing →
        lowerStr m1.grpcMetadata = lowerStr m2.grpcMetadata →
        hGet req m1.httpHeader = V1 → V1 ≠ "" →
        hGet req m2.httpHeader = V2 → V2 ≠ "" →
        path ∉ cfg.skipPaths →
        mdGet (MetadataAnnotator cfg path req).1 m2.grpcMetadata =
          (if cfg.overwriteExisting then [applyTransform m2.transform V2]
           else [applyTransform m1.transform V1])) := by
  constructor
  · exact fun cfg req md m V hv hne =>
      mapIncomingHeader_present cfg req md m V hv hne
  · intro cfg m1 m2 path req V1 V2 hmaps hd1 hd2 hkey hv1 hne1 hv2 hne2 hskip
    have hmd1 : mapIncomingHeader cfg req [] m1 =
        (mdSet [] m1.grpcMetadata [applyTransform m1.transform V1], 0) := by
      rw [mapIncomingHeader_present cfg req [] m1 V1 hv1 hne1]
      simp [mdGet]
    have hget : mdGet (mdSet ([] : MD) m1.grpcMetadata
        [applyTransform m1.transform V1]) m2.grpcMetadata =
        [applyTransform m1.transform V1] := by
      rw [mdGet_mdSet, if_pos hkey.symm]
    have hmd2 := mapIncomingHeader_present cfg req
      (mdSet [] m1.grpcMetadata [applyTransform m1.transform V1]) m2 V2 hv2 hne2
    unfold MetadataAnnotator
    rw [if_neg hskip, hmaps]
    by_cases hov : cfg.overwriteExisting
    · have hmd2w : mapIncomingHeader cfg req
          (mdSet [] m1.grpcMetadata [applyTransform m1.transform V1]) m2 =
          (mdSet (mdSet [] m1.grpcMetadata [applyTransform m1.transform V1])
            m2.grpcMetadata [applyTransform m2.transform V2], 0) := by
        rw [hmd2, if_neg (by simp [hov])]
      simp only [applyInboundRules, if_neg hd1, if_neg hd2, hmd1, hmd2w]
      rw [if_pos hov, mdGet_mdSet, if_pos rfl]
    · have hovf : cfg.overwriteExisting = false := by
        simpa using hov
      have hmd2w : mapIncomingHeader cfg req
          (mdSet [] m1.grpcMetadata [applyTransform m1.transform V1]) m2 =
          (mdSet [] m1.grpcMetadata [applyTransform m1.transform V1], 0) := by
        rw [hmd2, if_pos ⟨hovf, by rw [hget]; simp⟩]
      simp only [applyInboundRules, if_neg hd1, if_neg hd2, hmd1, hmd2w]
      rw [if_neg (by simp [hovf]), hget]

theorem C2_inbound_write_semantics_amended_witness :
    (mapIncomingHeader cfgC2w hsC2w [] mC2b =
      (if cfgC2w.overwriteExisting = false ∧ mdGet [] mC2b.grpcMetadata ≠ []
       then []
       else mdSet [] mC2b.grpcMetadata
         [applyTransform mC2b.transform "two"], 0)) ∧
    mdGet (MetadataAnnotator cfgC2w "/p" hsC2w).1 mC2b.grpcMetadata =
      (if cfgC2w.overwriteExisting then [applyTransform mC2b.transform "two"]
       else [applyTransform mC2a.transform "one"]) :=
  ⟨C2_inbound_write_semantics_amended.1 cfgC2w hsC2w [] mC2b "two"
      (by decide) (by decide),
   C2_inbound_write_semantics_amended.2 cfgC2w mC2a mC2b "/p" hsC2w "one" "two"
      rfl (by decide) (by decide) (by decide) (by decide) (by decide)
      (by decide) (by decide) (by decide)⟩

/-- C3: for every request whose path is in the skip set, applyInbound
(MetadataAnnotator) returns the empty destination metadata (and no
warnings) without evaluating any rule, regardless of the request headers. -/
theorem C3_skip_path_short_circuit (cfg : Config) (path : String)
    (req : Headers) (h : path ∈ cfg.skipPaths) :
    MetadataAnnotator cfg path req = ([], 0) := by
  simp [MetadataAnnotator, h]

theorem C3_skip_path_short_circuit_witness :
    MetadataAnnotator cfgC3 "/health" [("X-User-ID", "12345")] = ([], 0) :=
  C3_skip_path_short_circuit cfgC3 "/health" [("X-User-ID", "12345")]
    (by decide)

/-- C4 counterexample: for a call not on a skip path, the interceptor hands
the handler a context whose metadata is an unchanged copy of the incoming
metadata: with the rule (X-Custom -> custom-int) and a value present under
"x-custom", nothing is re-keyed under the internal name "custom-int",
contradicting the claimed Inbound+Bidirectional rewrite of the context. -/
theorem C4_counterexample :
    UnaryServerInterceptor cfgC4 "/svc/M" (some mdC4) = some (copyMD mdC4) ∧
    mdGet (copyMD mdC4) "custom-int" = [] ∧
    mdGet (copyMD mdC4) "x-custom" = ["v"] :=
  ⟨by decide, by decide, by decide⟩

/-- C4 (amended): on a skip-set route the interceptor invokes the handler
with the context untouched; otherwise it rebinds the context to
processIncomingMetadata, which is a plain copy of the incoming metadata
(the rule loop in the source has an empty body, so no normalization or
re-keying under internal names happens); a context without metadata passes
through unchanged. -/
theorem C4_interceptor_amended :
    (∀ (cfg : Config) (fullMethod : String) (ctx : Option MD),
        fullMethod ∈ cfg.skipPaths →
        UnaryServerInterceptor cfg fullMethod ctx = ctx) ∧
    (∀ (cfg : Config) (fullMethod : String) (ctx : Option MD),
        fullMethod ∉ cfg.skipPaths →
        UnaryServerInterceptor cfg fullMethod ctx =
          processIncomingMetadata cfg ctx) ∧
    (∀ (cfg : Config) (md : MD),
        processIncomingMetadata cfg (some md) = some (copyMD md)) ∧
    (∀ cfg : Config, processIncomingMetadata cfg none = none) :=
  ⟨fun cfg fm ctx h => by simp [UnaryServerInterceptor, h],
   fun cfg fm ctx h => by simp [UnaryServerInterceptor, h],
   processIncomingMetadata_some,
   fun cfg => rfl⟩

theorem C4_interceptor_amended_witness :
    UnaryServerInterceptor cfgC4 "/health" (some mdC4) = some mdC4 ∧
    UnaryServerInterceptor cfgC4 "/svc/M" (some mdC4) =
      processIncomingMetadata cfgC4 (some mdC4) :=
  ⟨C4_interceptor_amended.1 cfgC4 "/health" (some mdC4) (by decide),
   C4_interceptor_amended.2.1 cfgC4 "/svc/M" (some mdC4) (by decide)⟩

/-- C5 counterexample: with caseSensitiveMatching=true and a rule declared
for "x-user-id", a request header "X-User-Id" (differing only in case)
still matches in applyInbound — `req.Header.Get` canonicalizes MIME keys,
and mapIncomingHeader never consults the CaseSensitive policy. -/
theorem C5_counterexample :
    cfgC5.caseSensitive = true ∧
    mdGet (MetadataAnnotator cfgC5 "/api" hsC5).1 "user-id" = ["42"] :=
  ⟨rfl, by decide⟩

/-- C5 (amended): applyInbound (MetadataAnnotator) looks the source header
up case-insensitively regardless of the caseSensitiveMatching policy — its
result is invariant under the flag, and "X-User-Id" matches a rule declared
as "x-user-id" even with caseSensitiveMatching=true.  The policy instead
governs the HeaderMatcher component: there, with caseSensitiveMatching=true
the rule table misses "X-User-Id" (falling back to the gateway default
matcher), and with caseSensitiveMatching=false it maps it to "user-id". -/
theorem C5_case_sensitivity_amended :
    (∀ (cfg : Config) (b : Bool) (path : String) (req : Headers),
        MetadataAnnotator { cfg with caseSensitive := b } path req =
          MetadataAnnotator cfg path req) ∧
    mdGet (MetadataAnnotator cfgC5 "/api" hsC5).1 "user-id" = ["42"] ∧
    headerMatcherLookup cfgC5 "X-User-Id" = none ∧
    headerMatcherLookup { cfgC5 with caseSensitive := false } "X-User-Id" =
      some "user-id" := by
  refine ⟨?_, by decide, by decide, by decide⟩
  intro cfg b path req
  unfold MetadataAnnotator
  by_cases hp : path ∈ cfg.skipPaths
  · rw [if_pos hp, if_pos hp]
  · rw [if_neg hp, if_neg hp]
    exact applyInboundRules_congr { cfg with caseSensitive := b } cfg rfl req
      cfg.mappings []

/-- C6: the outbound per-rule step reads only the first value associated
with the internal name of the rule (the whole step is invariant under truncating
every metadata entry to its first value), substitutes the default when the
key is absent, records a warning and writes nothing when a required key is
absent without default, skips silently when an optional key is absent,
applies the transform to the chosen value and writes the result into the
header sink under the external name of the rule unless overwriteExisting=false
and the sink already has that header; the ResponseModifier pass applies
this to every rule except those with direction Incoming, which are
skipped. -/
theorem C6_outbound_first_value_semantics :
    (∀ (cfg : Config) (md : MD) (w : Sink) (m : HeaderMapping) (v : String)
        (rest : List String),
        mdGet md m.grpcMetadata = v :: rest →
        mapOutgoingHeader cfg md w m =
          (if cfg.overwriteExisting = false ∧ sinkGet w m.httpHeader ≠ ""
           then w
           else sinkSet w m.httpHeader (applyTransform m.transform v), 0)) ∧
    (∀ (cfg : Config) (md : MD) (w : Sink) (m : HeaderMapping),
        mapOutgoingHeader cfg md w m = mapOutgoingHeader cfg (mdFirst md) w m) ∧
    (∀ (cfg : Config) (md : MD) (w : Sink) (m : HeaderMapping),
        mdGet md m.grpcMetadata = [] → m.defaultValue ≠ "" →
        mapOutgoingHeader cfg md w m =
          (if cfg.overwriteExisting = false ∧ sinkGet w m.httpHeader ≠ ""
           then w
           else sinkSet w m.httpHeader
             (applyTransform m.transform m.defaultValue), 0)) ∧
    (∀ (cfg : Config) (md : MD) (w : Sink) (m : HeaderMapping),
        mdGet md m.grpcMetadata = [] → m.defaultValue = "" →
        m.required = true → mapOutgoingHeader cfg md w m = (w, 1)) ∧
    (∀ (cfg : Config) (md : MD) (w : Sink) (m : HeaderMapping),
        mdGet md m.grpcMetadata = [] → m.defaultValue = "" →
        m.required = false → mapOutgoingHeader cfg md w m = (w, 0)) ∧
    (∀ (cfg : Config) (md : MD) (m : HeaderMapping)
        (rest : List HeaderMapping) (w : Sink),
        m.direction = MappingDirection.Incoming →
        applyOutboundRules cfg md (m :: rest) w =
          applyOutboundRules cfg md rest w) ∧
    (∀ (cfg : Config) (md : MD) (w : Sink),
        ResponseModifier cfg md w = applyOutboundRules cfg md cfg.mappings w) :=
  ⟨fun cfg md w m v rest hv => mapOutgoingHeader_present cfg md w m v rest hv,
   fun cfg md w m => mapOutgoingHeader_mdFirst cfg md w m,
   fun cfg md w m hv hd => mapOutgoingHeader_default cfg md w m hv hd,
   fun cfg md w m hv hdef hreq =>
     mapOutgoingHeader_required_missing cfg md w m hv hdef hreq,
   fun cfg md w m hv hdef hreq =>
     mapOutgoingHeader_missing_optional cfg md w m hv hdef hreq,
   fun cfg md m rest w h => by simp [applyOutboundRules, h],
   fun cfg md w => rfl⟩

theorem C6_outbound_first_value_semantics_witness :
    mapOutgoingHeader cfgC6 mdC6 [] mC6 =
      (if cfgC6.overwriteExisting = false ∧ sinkGet [] mC6.httpHeader ≠ ""
       then []
       else sinkSet [] mC6.httpHeader (applyTransform mC6.transform "150ms"),
       0) :=
  C6_outbound_first_value_semantics.1 cfgC6 mdC6 [] mC6 "150ms" ["999ms"]
    (by decide)

/-- C7: Validate returns an error exactly when the configuration is nil or
some mapping has an empty HTTPHeader or an empty GRPCMetadata; in
particular it never reports an error for a configuration whose mappings all
have non-empty fields, duplicates included.  A duplicate
(externalName, internalName) pair across two rules is nonetheless an error
on the separate ValidateConfig path. -/
theorem C7_validate_semantics :
    (Validate none = true) ∧
    (∀ c : Config,
        Validate (some c) = true ↔
          ∃ m ∈ c.mappings, m.httpHeader = "" ∨ m.grpcMetadata = "") ∧
    (∀ c : Config,
        (∀ m ∈ c.mappings, m.httpHeader ≠ "" ∧ m.grpcMetadata ≠ "") →
        Validate (some c) = false) ∧
    (∀ (c : Config) (l1 l2 l3 : List HeaderMapping) (m1 m2 : HeaderMapping),
        c.mappings = l1 ++ m1 :: (l2 ++ m2 :: l3) →
        m1.httpHeader = m2.httpHeader → m1.grpcMetadata = m2.grpcMetadata →
        ValidateConfig (some c) = true) := by
  refine ⟨rfl, ?_, ?_, ?_⟩
  · intro c
    simp [Validate, List.any_eq_true]
  · intro c h
    simp only [Validate, List.any_eq_false]
    intro m hm
    have hmne := h m hm
    simp [hmne.1, hmne.2]
  · intro c l1 l2 l3 m1 m2 hmaps h1 h2
    show checkMappings c.mappings [] = true
    rw [hmaps]
    exact checkMappings_dup m1 m2 (by simp [ruleKey, h1, h2]) l1 l2 l3 []

theorem C7_validate_semantics_witness :
    Validate (some cfgC7) = false ∧ ValidateConfig (some cfgC7) = true :=
  ⟨C7_validate_semantics.2.2.1 cfgC7 (by decide),
   C7_validate_semantics.2.2.2 cfgC7 [] [] [] dupC7a dupC7b rfl rfl rfl⟩

/-- C8: ChainTransforms applies its transforms strictly left to right
(running a concatenation equals running the left part first and feeding its
output to the right part; a cons applies its head first), a nil entry is
skipped as the identity, and the chain of trim and remove-prefix "Bearer "
maps "  Bearer abc123  " to "abc123".  Every transform is a total function,
so no chain application can fail. -/
theorem C8_chain_transforms :
    (∀ (ts us : List (Option TransformFunc)) (v : String),
        ChainTransforms (ts ++ us) v = ChainTransforms us (ChainTransforms ts v)) ∧
    (∀ (f : TransformFunc) (ts : List (Option TransformFunc)) (v : String),
        ChainTransforms (some f :: ts) v = ChainTransforms ts (f v)) ∧
    (∀ (ts : List (Option TransformFunc)) (v : String),
        ChainTransforms (none :: ts) v = ChainTransforms ts v) ∧
    ChainTransforms [some TrimSpace, some ( RemovePrefix "Bearer ")]
      "  Bearer abc123  " = "abc123" := by
  refine ⟨?_, fun f ts v => rfl, fun ts v => rfl, by decide⟩
  intro ts us v
  simp [ChainTransforms, List.foldl_append]

/-- C9: calling WithTransform, WithRequired or WithDefault on a builder
with zero mappings returns the builder unchanged (a no-op, not an error);
with at least one mapping, each of them rewrites only the most recently
appended mapping (and only the one field concerned), leaving every earlier
mapping and the RuleSet-level policy fields (skip paths, case sensitivity,
overwrite, debug) unchanged. -/
theorem C9_builder_last_mapping :
    (∀ (b : Config) (t : TransformFunc) (r : Bool) (d : String),
        b.mappings = [] →
        WithTransform b t = b ∧ WithRequired b r = b ∧ WithDefault b d = b) ∧
    (∀ (b : Config) (ms : List HeaderMapping) (m : HeaderMapping)
        (t : TransformFunc),
        b.mappings = ms ++ [m] →
        WithTransform b t =
          { b with mappings := ms ++ [{ m with transform := some t }] }) ∧
    (∀ (b : Config) (ms : List HeaderMapping) (m : HeaderMapping) (r : Bool),
        b.mappings = ms ++ [m] →
        WithRequired b r =
          { b with mappings := ms ++ [{ m with required := r }] }) ∧
    (∀ (b : Config) (ms : List HeaderMapping) (m : HeaderMapping)
        (d : String),
        b.mappings = ms ++ [m] →
        WithDefault b d =
          { b with mappings := ms ++ [{ m with defaultValue := d }] }) ∧
    (∀ (b : Config) (t : TransformFunc) (r : Bool) (d : String),
        (WithTransform b t).skipPaths = b.skipPaths ∧
        (WithTransform b t).caseSensitive = b.caseSensitive ∧
        (WithTransform b t).overwriteExisting = b.overwriteExisting ∧
        (WithTransform b t).debug = b.debug ∧
        (WithRequired b r).skipPaths = b.skipPaths ∧
        (WithRequired b r).debug = b.debug ∧
        (WithDefault b d).skipPaths = b.skipPaths ∧
        (WithDefault b d).debug = b.debug) := by
  refine ⟨?_, ?_, ?_, ?_, ?_⟩
  · intro b t r d h
    refine ⟨?_, ?_, ?_⟩
    · have hu : updateLast b.mappings (fun m => { m with transform := some t }) =
          b.mappings := by rw [h]; rfl
      unfold WithTransform
      rw [hu]
    · have hu : updateLast b.mappings (fun m => { m with required := r }) =
          b.mappings := by rw [h]; rfl
      unfold WithRequired
      rw [hu]
    · have hu : updateLast b.mappings (fun m => { m with defaultValue := d }) =
          b.mappings := by rw [h]; rfl
      unfold WithDefault
      rw [hu]
  · intro b ms m t h
    unfold WithTransform
    rw [h, updateLast_append]
  · intro b ms m r h
    unfold WithRequired
    rw [h, updateLast_append]
  · intro b ms m d h
    unfold WithDefault
    rw [h, updateLast_append]
  · intro b t r d
    exact ⟨rfl, rfl, rfl, rfl, rfl, rfl, rfl, rfl⟩

theorem C9_builder_last_mapping_witness :
    WithRequired bC9 true =
      { bC9 with mappings := [mC9a] ++ [{ mC9b with required := true }] } ∧
    WithTransform NewBuilder ToLower = NewBuilder :=
  ⟨C9_builder_last_mapping.2.2.1 bC9 [mC9a] mC9b true rfl,
   (C9_builder_last_mapping.1 NewBuilder ToLower true "" rfl).1⟩

/-- C10: for a rule with a non-empty default value and an absent source
value, both passes substitute the default before the transform runs, so the
written value is `transform(defaultValue)`; the result carries warn count
0, so the required=true missing-field path is never taken when a default is
present. -/
theorem C10_default_before_transform :
    (∀ (cfg : Config) (req : Headers) (md : MD) (m : HeaderMapping),
        m.defaultValue ≠ "" → hGet req m.httpHeader = "" →
        mapIncomingHeader cfg req md m =
          (if cfg.overwriteExisting = false ∧ mdGet md m.grpcMetadata ≠ []
           then md
           else mdSet md m.grpcMetadata
             [applyTransform m.transform m.defaultValue], 0)) ∧
    (∀ (cfg : Config) (md : MD) (w : Sink) (m : HeaderMapping),
        m.defaultValue ≠ "" → mdGet md m.grpcMetadata = [] →
        mapOutgoingHeader cfg md w m =
          (if cfg.overwriteExisting = false ∧ sinkGet w m.httpHeader ≠ ""
           then w
           else sinkSet w m.httpHeader
             (applyTransform m.transform m.defaultValue), 0)) :=
  ⟨fun cfg req md m hd habs => mapIncomingHeader_default cfg req md m hd habs,
   fun cfg md w m hd hv => mapOutgoingHeader_default cfg md w m hv hd⟩

theorem C10_default_before_transform_witness :
    (mapIncomingHeader cfgC10 [] [] mC10 =
      (if cfgC10.overwriteExisting = false ∧ mdGet [] mC10.grpcMetadata ≠ []
       then []
       else mdSet [] mC10.grpcMetadata
         [applyTransform mC10.transform mC10.defaultValue], 0)) ∧
    (mapOutgoingHeader cfgC10 [] [] mC10 =
      (if cfgC10.overwriteExisting = false ∧ sinkGet [] mC10.httpHeader ≠ ""
       then []
       else sinkSet [] mC10.httpHeader
         (applyTransform mC10.transform mC10.defaultValue), 0)) :=
  ⟨C10_default_before_transform.1 cfgC10 [] [] mC10 (by decide) (by decide),
   C10_default_before_transform.2 cfgC10 [] [] mC10 (by decide) (by decide)⟩
